import Mathlib

/-!
Verification of the dual-bookmark-bar extension (two revisions of the same
background script: `src/background.js`, called `BG` below, and
`src/unnamed/part_000`, called `P0` below).

The browser bookmark store is shallowly embedded as a flat list of nodes
(sibling order = list order, as returned by `chrome.bookmarks.getChildren`)
together with a counter supplying fresh ids.  A node with no `url` is a
folder; this is the sole folder/leaf discriminator, as in the Chrome API.
JavaScript truthiness on the `url` field and on stored string flags is
modelled explicitly (`jsTruthy`, `jsOr`): `undefined` is `none`, and the
empty string is falsy.  Bookmark ids are naturals (Chrome uses non-empty
numeric strings, which are always truthy, so `if (!id)` corresponds to
`Option.isNone`).  `chrome.storage.local` keys live as fields of the
orchestrator state records.  Asynchronous Chrome calls are sequential in
the source (every call is awaited), so the embedding is direct state
passing; recursion over the external tree is fuel-bounded.
-/

/-- A bookmark node as seen through the Chrome bookmarks API:
`{ id, parentId, title, url? }`; `url = none` means folder. -/
structure BNode where
  id : Nat
  parentId : Nat
  title : String
  url : Option String
deriving DecidableEq

/-- The external bookmark store: all nodes (children of a folder appear in
list order), plus the next fresh id handed out by `create`. -/
structure Store where
  nodes : List BNode
  nextId : Nat
deriving DecidableEq

/-- JS truthiness of an optional string (`undefined` and `""` are falsy). -/
def jsTruthy : Option String → Bool
  | none => false
  | some s => s ≠ ""

/-- JS `v || d` on an optional string (used for `stored || "private"`). -/
def jsOr (v : Option String) (d : String) : String :=
  match v with
  | none => d
  | some s => if s = "" then d else s

/-- JS `u || undefined` (part_000 passes `item.url || undefined` to create). -/
def jsUrlOrUndefined (u : Option String) : Option String :=
  if jsTruthy u then u else none

/-- `chrome.bookmarks.getChildren(pid)`: direct children, in order. -/
def getChildren (s : Store) (pid : Nat) : List BNode :=
  s.nodes.filter (fun n => n.parentId == pid)

/-- `chrome.bookmarks.get(id)` (first result), `none` when the id does not
resolve (the API call would reject). -/
def getNode (s : Store) (id : Nat) : Option BNode :=
  s.nodes.find? (fun n => n.id == id)

/-- Whether a node with this id exists (calls on a missing id reject). -/
def existsNode (s : Store) (id : Nat) : Bool :=
  s.nodes.any (fun n => n.id == id)

/-- `chrome.bookmarks.create({parentId, title, url})`: appends a node with a
fresh id as the last child of `pid` and returns it. -/
def createNode (s : Store) (pid : Nat) (title : String) (url : Option String) :
    BNode × Store :=
  (⟨s.nextId, pid, title, url⟩,
   ⟨s.nodes ++ [⟨s.nextId, pid, title, url⟩], s.nextId + 1⟩)

/-- Ids of a node and of everything beneath it, to the given depth. -/
def subtreeIds (s : Store) : Nat → Nat → List Nat
  | 0, _ => []
  | fuel + 1, i => i :: ((getChildren s i).map (fun n => subtreeIds s fuel n.id)).flatten

/-- `chrome.bookmarks.removeTree(i)`: deletes the node and its subtree. -/
def removeTree (s : Store) (i : Nat) : Store :=
  ⟨s.nodes.filter (fun n => !((subtreeIds s (s.nodes.length + 1) i).contains n.id)),
   s.nextId⟩

/-- The clear loop both revisions use: snapshot the children of `pid`, then
`removeTree` each one in turn. -/
def clearChildren (s : Store) (pid : Nat) : Store :=
  (getChildren s pid).foldl (fun acc n => removeTree acc n.id) s

/-- Ids reachable from `o` (including `o`) descending at most `F` levels of
parent links; used to state that a destination is outside a source subtree. -/
def reachIds (s : Store) : Nat → Nat → List Nat
  | 0, _ => []
  | F + 1, o => o :: ((getChildren s o).map (fun c => reachIds s F c.id)).flatten

/-- Pure bookmark trees, the id-free content of a store region: title, url
(`none` for folders), and the ordered children. -/
inductive BTree where
  | mk (title : String) (url : Option String) (children : List BTree)

/-- Extract the content forest below folder `pid`, to depth `F`. -/
def extractChildren (s : Store) : Nat → Nat → List BTree
  | 0, _ => []
  | F + 1, pid =>
      (getChildren s pid).map (fun n => BTree.mk n.title n.url (extractChildren s F n.id))

/-- Extract one node together with its content subtree (to depth `F`). -/
def extractNode (s : Store) (F : Nat) (n : BNode) : BTree :=
  BTree.mk n.title n.url (extractChildren s F n.id)

/-- Well-formed store: distinct ids, ids and parent ids below `nextId`,
no empty-string urls (Chrome never stores one), and every node's parent,
when it exists, is a folder. -/
def WF (s : Store) : Prop :=
  (s.nodes.map (fun n => n.id)).Nodup ∧
  (∀ n ∈ s.nodes, n.id < s.nextId) ∧
  (∀ n ∈ s.nodes, n.parentId < s.nextId) ∧
  (∀ n ∈ s.nodes, n.url ≠ some "") ∧
  (∀ n ∈ s.nodes, ∀ p ∈ s.nodes, n.parentId = p.id → p.url = none)

instance : DecidablePred WF := fun s => by
  unfold WF
  infer_instance

namespace BG
/-! Model of `src/background.js`.  `CONFIG.BOOKMARKS_BAR_ID = "1"`. -/

/-- `CONFIG.BOOKMARKS_BAR_ID` ("1"). -/
def BOOKMARKS_BAR_ID : Nat := 1

/-- The `for (const item of items)` loop of background.js `copyBookmarks`:
create a copy of each item under `destId` (passing `url: item.url`, which is
`undefined` for folders), and recurse into folders through `rec` (the
enclosing `copyBookmarks` one recursion level down).  A failure from the
recursion is rethrown, aborting the remaining items. -/
def copyLoop (rec : Store → Nat → Nat → Store × Bool) :
    Store → List BNode → Nat → Store × Bool
  | s, [], _ => (s, true)
  | s, item :: rest, destId =>
      let p := createNode s destId item.title item.url
      let r := if jsTruthy item.url then (p.2, true)
               else rec p.2 item.id p.1.id
      if r.2 then copyLoop rec r.1 rest destId else r

/-- `copyBookmarks(sourceId, destId, clearDestFirst)` of background.js
(lines 70-99).  Returns the resulting store plus a success flag: the
function rethrows any error (`throw error`), so one failed child aborts the
whole call; a `false` flag is a thrown error and the store component holds
whatever partial writes already happened.  An error arises when a
`getChildren` target does not resolve (the awaited call rejects); the fuel
bounds the recursion depth, with exhaustion also reported as an error.  The
recursive call for a folder child passes `clearDestFirst = false` (the JS
default). -/
def copyBookmarks : Nat → Store → Nat → Nat → Bool → Store × Bool
  | 0, s, _, _, _ => (s, false)
  | fuel + 1, s, sourceId, destId, clearDestFirst =>
      if clearDestFirst && !(existsNode s destId) then (s, false)
      else
        let s1 := if clearDestFirst then clearChildren s destId else s
        if !(existsNode s1 sourceId) then (s1, false)
        else copyLoop (fun s2 a b => copyBookmarks fuel s2 a b false)
               s1 (getChildren s1 sourceId) destId

/-- `ensureFolder(parentId, folderName)` of background.js (lines 46-65):
look for a child of `parentId` whose title equals `folderName` exactly and
which has no (truthy) url; create the folder when absent.  Any error (the
parent id failing to resolve) is caught and reported as `none` with the
store untouched. -/
def ensureFolder (s : Store) (parentId : Nat) (folderName : String) :
    Option BNode × Store :=
  if existsNode s parentId then
    match (getChildren s parentId).find?
        (fun child => child.title == folderName && !(jsTruthy child.url)) with
    | some existing => (some existing, s)
    | none =>
        let p := createNode s parentId folderName none
        (some p.1, p.2)
  else (none, s)

/-- The background.js orchestrator state: the bookmark store, the
`chrome.storage.local` keys the claims touch (`currentMode`,
`privateFolderId`, `workFolderId`), the module-global
`isOperationInProgress` gate, and whether the `finally` block has scheduled
the delayed `isOperationInProgress = false` step. -/
structure OState where
  store : Store
  currentMode : Option String
  privateFolderId : Option Nat
  workFolderId : Option Nat
  gate : Bool
  resetPending : Bool
deriving DecidableEq

/-- `result[CONFIG.CURRENT_MODE_KEY] || "private"`. -/
def readMode (m : Option String) : String := jsOr m "private"

/-- The next mode a toggle switches to, as computed at lines 221-222. -/
def nextMode (m : Option String) : String :=
  if readMode m = "private" then "work" else "private"

/-- `saveCurrentBookmarks()` of background.js (lines 179-204): skip when the
gate is set; otherwise copy the bar into the current mode's folder id
(clearing it first).  All errors are caught and swallowed. -/
def saveCurrentBookmarks (fuel : Nat) (st : OState) : OState :=
  if st.gate then st
  else
    let targetId := if readMode st.currentMode = "private"
                    then st.privateFolderId else st.workFolderId
    match targetId with
    | none => st
    | some tid =>
        { st with store := (copyBookmarks fuel st.store BOOKMARKS_BAR_ID tid true).1 }

/-- `toggleBookmarks()` of background.js (lines 209-253): return when the
gate is set; otherwise set the gate, read the current mode, call
`saveCurrentBookmarks` (note: the gate was just set, so that call returns
immediately), resolve the next mode's stored folder id (throwing when the
key is unset), clear-and-load the bar from it, persist the new mode, and in
`finally` schedule the delayed gate reset. -/
def toggleBookmarks (fuel : Nat) (st : OState) : OState :=
  if st.gate then st
  else
    let st1 : OState := { st with gate := true }
    let newMode := nextMode st1.currentMode
    let st2 := saveCurrentBookmarks fuel st1
    let sourceId := if newMode = "private" then st2.privateFolderId else st2.workFolderId
    match sourceId with
    | none => { st2 with resetPending := true }
    | some sid =>
        let r := copyBookmarks fuel st2.store sid BOOKMARKS_BAR_ID true
        if r.2 then
          { st2 with store := r.1, currentMode := some newMode, resetPending := true }
        else
          { st2 with store := r.1, resetPending := true }

/-- The delayed `setTimeout(() => { isOperationInProgress = false; }, 1000)`
step scheduled by the `finally` block firing. -/
def fireReset (st : OState) : OState :=
  { st with gate := false, resetPending := false }

end BG

namespace P0
/-! Model of `src/unnamed/part_000`. -/

/-- `BAR_ID` ("1"). -/
def BAR_ID : Nat := 1

/-- `OTHER_BOOKMARKS_ID` ("2"). -/
def OTHER_BOOKMARKS_ID : Nat := 2

/-- `BACKUP_FOLDER_NAME`. -/
def BACKUP_FOLDER_NAME : String := "Bookmark Backup"

/-- `PRIVATE_FOLDER_NAME`. -/
def PRIVATE_FOLDER_NAME : String := "Private Bookmarks"

/-- `WORK_FOLDER_NAME`. -/
def WORK_FOLDER_NAME : String := "Work Bookmarks"

/-- `findFolderByName(parentId, title)` of part_000 (lines 9-12): the first
child of `parentId` whose title equals `title` exactly and whose url is
falsy. -/
def findFolderByName (s : Store) (parentId : Nat) (title : String) : Option BNode :=
  (getChildren s parentId).find?
    (fun child => child.title == title && !(jsTruthy child.url))

/-- `clearBookmarksBar()` of part_000 (lines 64-69). -/
def clearBookmarksBar (s : Store) : Store :=
  clearChildren s BAR_ID

/-- The `for (const item of items)` loop of part_000 `copyBookmarks`:
create a copy of each item under `destId` (passing
`url: item.url || undefined`), recursing into folders through `rec` (the
enclosing `copyBookmarks` one recursion level down, which re-validates its
destination).  Per-child errors are caught and skipped, so the loop always
continues with the remaining items. -/
def copyLoop (rec : Store → Nat → Nat → Store) :
    Store → List BNode → Nat → Store
  | s, [], _ => s
  | s, item :: rest, destId =>
      let p := createNode s destId item.title (jsUrlOrUndefined item.url)
      let s2 := if jsTruthy item.url then p.2
                else rec p.2 item.id p.1.id
      copyLoop rec s2 rest destId

/-- `copyBookmarks(sourceId, destId)` of part_000 (lines 72-101): validate
that `destId` resolves to a node with a falsy url (else log and return with
no writes); list the children of `sourceId` (a rejection is swallowed by the
outer catch, again returning with no writes so far); copy each child under
`destId`, recursing into folders.  The outer catch swallows everything, so
the function never throws; the fuel bounds the recursion depth. -/
def copyBookmarks : Nat → Store → Nat → Nat → Store
  | 0, s, _, _ => s
  | fuel + 1, s, sourceId, destId =>
      match getNode s destId with
      | none => s
      | some destNode =>
          if jsTruthy destNode.url then s
          else if !(existsNode s sourceId) then s
          else copyLoop (copyBookmarks fuel) s (getChildren s sourceId) destId

/-- The part_000 orchestrator state: the bookmark store, the stored
`activeFolder` flag, the module-global `isTogglingBookmarks` gate, and
whether the delayed gate reset has been scheduled by `finally`. -/
structure OState where
  store : Store
  activeFolder : Option String
  gate : Bool
  resetPending : Bool
deriving DecidableEq

/-- The next folder computed by the toggle (line 150):
`activeFolder === 'private' ? 'work' : 'private'` — note that an *unset*
`activeFolder` is not `=== 'private'`, so it yields `'private'`. -/
def nextFolder (activeFolder : Option String) : String :=
  if activeFolder = some "private" then "work" else "private"

/-- `saveCurrentBookmarksToBackup()` of part_000 (lines 107-138): skip when
the gate is set; return when `activeFolder` is falsy (no `|| 'private'`
default here) or when the backup root or the target folder cannot be found
by name; otherwise clear the target folder and copy the bar into it. -/
def saveCurrentBookmarksToBackup (fuel : Nat) (st : OState) : OState :=
  if st.gate then st
  else if !(jsTruthy st.activeFolder) then st
  else
    match findFolderByName st.store OTHER_BOOKMARKS_ID BACKUP_FOLDER_NAME with
    | none => st
    | some backupFolder =>
        let targetFolderName := if st.activeFolder = some "private"
                                then PRIVATE_FOLDER_NAME else WORK_FOLDER_NAME
        match findFolderByName st.store backupFolder.id targetFolderName with
        | none => st
        | some targetFolder =>
            let s1 := clearChildren st.store targetFolder.id
            { st with store := copyBookmarks fuel s1 BAR_ID targetFolder.id }

/-- `toggleBookmarks()` of part_000 (lines 141-181): there is **no**
in-progress check — the function unconditionally sets the gate, calls
`saveCurrentBookmarksToBackup` (which returns at once because the gate was
just set), resolves the next folder by name (returning on failure without
touching the bar), clears the bar, copies the next folder into it, persists
`activeFolder`, and in `finally` schedules the delayed gate reset. -/
def toggleBookmarks (fuel : Nat) (st : OState) : OState :=
  let st1 : OState := { st with gate := true }
  let st2 := saveCurrentBookmarksToBackup fuel st1
  let next := nextFolder st2.activeFolder
  match findFolderByName st2.store OTHER_BOOKMARKS_ID BACKUP_FOLDER_NAME with
  | none => { st2 with resetPending := true }
  | some backupFolder =>
      let sourceFolderName := if next = "private"
                              then PRIVATE_FOLDER_NAME else WORK_FOLDER_NAME
      match findFolderByName st2.store backupFolder.id sourceFolderName with
      | none => { st2 with resetPending := true }
      | some sourceFolder =>
          let s1 := clearBookmarksBar st2.store
          let s2 := copyBookmarks fuel s1 sourceFolder.id BAR_ID
          { st2 with store := s2, activeFolder := some next, resetPending := true }

/-- The delayed `setTimeout(() => { isTogglingBookmarks = false; }, 1000)`
step scheduled by the `finally` block firing. -/
def fireReset (st : OState) : OState :=
  { st with gate := false, resetPending := false }

end P0

/-- State of the timer world for the debounced auto-save: the next timer id,
the timers that are scheduled and not yet cancelled or fired (each pending
timer runs the auto-save once when it fires), and the value of the
`saveTimeout` variable of background.js. -/
structure DebounceState where
  nextTimer : Nat
  pending : List Nat
  slot : Option Nat
deriving DecidableEq

/-- The initial timer world: nothing scheduled. -/
def debounceInit : DebounceState := ⟨0, [], none⟩

/-- `handleBookmarkChange` of background.js (lines 265-278): clear any timer
held in `saveTimeout`, then schedule a fresh auto-save timer and store it in
`saveTimeout`. -/
def BGhandleBookmarkChange (d : DebounceState) : DebounceState :=
  let pending1 := match d.slot with
                  | some t => d.pending.erase t
                  | none => d.pending
  ⟨d.nextTimer + 1, pending1 ++ [d.nextTimer], some d.nextTimer⟩

/-- `handleBookmarkChange` of part_000 (lines 189-194): schedule a fresh
auto-save timer; no handle is kept and nothing is ever cancelled. -/
def P0handleBookmarkChange (d : DebounceState) : DebounceState :=
  ⟨d.nextTimer + 1, d.pending ++ [d.nextTimer], d.slot⟩

/-! Concrete scenario states, used by the closed evaluation theorems and the
witnesses.  Ids follow Chrome's layout: 1 = bookmarks bar, 2 = other
bookmarks; the backup hierarchy sits under 2. -/

/-- background.js scenario store of spec §8: bar = [A], Private backup
empty, Work backup = [B].  Node 3 is the storage folder, 4 the Private
folder, 5 the Work folder. -/
def bgScenarioStore : Store :=
  ⟨[⟨1, 0, "Bookmarks Bar", none⟩,
    ⟨2, 0, "Other Bookmarks", none⟩,
    ⟨3, 2, "Dual Bookmarks Storage", none⟩,
    ⟨4, 3, "Private Bookmarks", none⟩,
    ⟨5, 3, "Work Bookmarks", none⟩,
    ⟨6, 1, "A", some "http://a"⟩,
    ⟨7, 5, "B", some "http://b"⟩], 8⟩

/-- background.js scenario state: mode `private`, folder ids cached, idle. -/
def bgScenarioState : BG.OState :=
  ⟨bgScenarioStore, some "private", some 4, some 5, false, false⟩

/-- part_000 scenario store: same shape, with the part_000 folder names. -/
def p0ScenarioStore : Store :=
  ⟨[⟨1, 0, "Bookmarks Bar", none⟩,
    ⟨2, 0, "Other Bookmarks", none⟩,
    ⟨3, 2, "Bookmark Backup", none⟩,
    ⟨4, 3, "Private Bookmarks", none⟩,
    ⟨5, 3, "Work Bookmarks", none⟩,
    ⟨6, 1, "A", some "http://a"⟩,
    ⟨7, 5, "B", some "http://b"⟩], 8⟩

/-- part_000 scenario state: `activeFolder = 'private'`, idle. -/
def p0ScenarioState : P0.OState :=
  ⟨p0ScenarioStore, some "private", false, false⟩

/-- background.js state for the externally-deleted-folder scenario: the
Work backup folder was deleted (no node 9 exists) but its id 9 is still
cached in storage. -/
def bgDanglingState : BG.OState :=
  ⟨⟨[⟨1, 0, "Bookmarks Bar", none⟩,
     ⟨2, 0, "Other Bookmarks", none⟩,
     ⟨3, 2, "Dual Bookmarks Storage", none⟩,
     ⟨4, 3, "Private Bookmarks", none⟩,
     ⟨6, 1, "A", some "http://a"⟩], 10⟩,
   some "private", some 4, some 9, false, false⟩

/-- part_000 state whose store has no backup root at all. -/
def p0NoBackupState : P0.OState :=
  ⟨⟨[⟨1, 0, "Bookmarks Bar", none⟩,
     ⟨2, 0, "Other Bookmarks", none⟩,
     ⟨6, 1, "A", some "http://a"⟩], 8⟩,
   some "private", false, false⟩

/-- part_000 state whose backup root exists but whose Work folder was
deleted externally. -/
def p0NoWorkState : P0.OState :=
  ⟨⟨[⟨1, 0, "Bookmarks Bar", none⟩,
     ⟨2, 0, "Other Bookmarks", none⟩,
     ⟨3, 2, "Bookmark Backup", none⟩,
     ⟨4, 3, "Private Bookmarks", none⟩,
     ⟨6, 1, "A", some "http://a"⟩], 8⟩,
   some "private", false, false⟩

/-- The bar contents of an orchestrator store as (title, url) pairs. -/
def barItems (s : Store) : List (String × Option String) :=
  (getChildren s 1).map (fun n => (n.title, n.url))

/-- The contents of folder `pid` as (title, url) pairs. -/
def folderItems (s : Store) (pid : Nat) : List (String × Option String) :=
  (getChildren s pid).map (fun n => (n.title, n.url))

/-- Modelled from the spec (§4.1, `copyTree`), operating on an extracted
content forest: for each tree in order, create a node under `dst` with the
same title and url, and when the created node is a folder, recurse into the
tree's children first.  This is the specification side of the refinement
theorem for the source `copyBookmarks`. -/
def plantForest : Store → List BTree → Nat → Store
  | s, [], _ => s
  | s, BTree.mk ti u cs :: ts, dst =>
      let p := createNode s dst ti u
      let s2 := if jsTruthy u then p.2 else plantForest p.2 cs p.1.id
      plantForest s2 ts dst

/-- `s'` extends `s` purely additively for destination `dst`: it has the
same nodes plus appended ones, each attached either to `dst` itself or to a
node freshly created during the same extension (parent id at least
`s.nextId`).  This is the shape of every store produced by the copy
functions, and is what makes extraction of untouched regions stable. -/
def Extends (s s' : Store) (dst : Nat) : Prop :=
  s.nextId ≤ s'.nextId ∧
  ∃ extra, s'.nodes = s.nodes ++ extra ∧
    ∀ e ∈ extra, (e.parentId = dst ∨ s.nextId ≤ e.parentId) ∧ s.nextId ≤ e.id

/-! ## Claim theorems -/

/-- C1: the claim says an explicit toggle that proceeds first saves the
current bar into the current mode's backup folder, so that toggling from
mode `private` with bar `[A]` leaves the Private backup holding exactly
`[A]`.  The code does not: `toggleBookmarks` sets the in-progress gate and
then calls the save routine, whose first statement returns because that
very gate is set, so the save never happens.  Evaluated at the spec's own
§8 scenario (mode `private`, bar `[A]`, Private backup empty, Work backup
`[B]`) in both revisions: after the toggle the bar is `[B]` and the mode is
`work` as claimed, but the Private backup is still empty, not `[A]`. -/
theorem C1_toggle_never_saves_current_bar :
    barItems bgScenarioState.store = [("A", some "http://a")] ∧
    folderItems (BG.toggleBookmarks 10 bgScenarioState).store 4 = [] ∧
    folderItems (BG.toggleBookmarks 10 bgScenarioState).store 4 ≠
      [("A", some "http://a")] ∧
    barItems (BG.toggleBookmarks 10 bgScenarioState).store = [("B", some "http://b")] ∧
    (BG.toggleBookmarks 10 bgScenarioState).currentMode = some "work" ∧
    barItems p0ScenarioState.store = [("A", some "http://a")] ∧
    folderItems (P0.toggleBookmarks 10 p0ScenarioState).store 4 = [] ∧
    (P0.toggleBookmarks 10 p0ScenarioState).activeFolder = some "work" := by
  decide

/-- C2: the claim says toggling twice (private→work→private) with no
external mutation in between restores the bar exactly.  Because each
toggle's save step is self-suppressed by the gate (see C1), the second
toggle reloads whatever the Private backup held *before* the first toggle,
not the original bar: starting from bar `[A]` with an empty Private backup,
two toggles (with the delayed gate reset firing in between) leave the bar
empty. -/
theorem C2_double_toggle_does_not_restore_bar :
    barItems bgScenarioState.store = [("A", some "http://a")] ∧
    (BG.toggleBookmarks 10 (BG.fireReset (BG.toggleBookmarks 10
        bgScenarioState))).currentMode = some "private" ∧
    barItems (BG.toggleBookmarks 10 (BG.fireReset (BG.toggleBookmarks 10
        bgScenarioState))).store = [] ∧
    barItems (BG.toggleBookmarks 10 (BG.fireReset (BG.toggleBookmarks 10
        bgScenarioState))).store ≠ barItems bgScenarioState.store := by
  decide

/-- C3 counterexample: in part_000 `toggleBookmarks` has no in-progress
check, so a toggle invoked while the gate is set is not a no-op: at the
scenario state with the gate set it flips `activeFolder` from `private` to
`work` and rewrites the bookmarks bar. -/
theorem C3_cex_p0_second_toggle_not_noop :
    ({ p0ScenarioState with gate := true } : P0.OState).gate = true ∧
    (P0.toggleBookmarks 10 { p0ScenarioState with gate := true }).activeFolder =
      some "work" ∧
    ({ p0ScenarioState with gate := true } : P0.OState).activeFolder =
      some "private" ∧
    (P0.toggleBookmarks 10 { p0ScenarioState with gate := true }).store ≠
      ({ p0ScenarioState with gate := true } : P0.OState).store := by
  decide

/-- C4 counterexample: in background.js the next mode's folder is resolved
only as a stored id (`getFolderIds`), with no check that the node still
exists.  When the Work folder was deleted externally but its id 9 is still
cached, the toggle does not abort before touching the bar: it clears the
bar, then the copy fails, leaving the bar empty instead of `[A]` (the mode
is indeed left unchanged). -/
theorem C4_cex_dangling_cached_id_empties_bar :
    bgDanglingState.gate = false ∧
    existsNode bgDanglingState.store 9 = false ∧
    bgDanglingState.workFolderId = some 9 ∧
    barItems bgDanglingState.store = [("A", some "http://a")] ∧
    barItems (BG.toggleBookmarks 10 bgDanglingState).store = [] ∧
    barItems (BG.toggleBookmarks 10 bgDanglingState).store ≠
      barItems bgDanglingState.store ∧
    (BG.toggleBookmarks 10 bgDanglingState).currentMode =
      bgDanglingState.currentMode := by
  decide

/-- C5 counterexample: part_000's `handleBookmarkChange` never cancels a
pending timer (there is no `clearTimeout` and no saved handle), so two
notifications within the window leave two pending auto-saves, not one. -/
theorem C5_cex_p0_notifications_not_coalesced :
    (Nat.iterate P0handleBookmarkChange 2 debounceInit).pending.length = 2 ∧
    (Nat.iterate P0handleBookmarkChange 2 debounceInit).pending.length ≠ 1 := by
  decide

/-- C9 counterexample: part_000 does not default an unset mode to
`private`.  Its toggle computes `activeFolder === 'private' ? 'work' :
'private'`, so from an *unset* mode it moves to `private` (the claim's
default would move to `work`, as it does from `private`); and its auto-save
returns without saving anything when the mode is unset. -/
theorem C9_cex_p0_unset_mode_not_defaulted :
    (P0.toggleBookmarks 10 { p0ScenarioState with activeFolder := none
      }).activeFolder = some "private" ∧
    (P0.toggleBookmarks 10 p0ScenarioState).activeFolder = some "work" ∧
    (P0.toggleBookmarks 10 { p0ScenarioState with activeFolder := none
      }).activeFolder ≠ (P0.toggleBookmarks 10 p0ScenarioState).activeFolder ∧
    P0.saveCurrentBookmarksToBackup 10 { p0ScenarioState with activeFolder := none } =
      { p0ScenarioState with activeFolder := none } := by
  decide

/-! Helper lemmas about the orchestrators. -/

/-- `saveCurrentBookmarks` returns immediately when the gate is set. -/
theorem BG_save_skipped_when_gate (fuel : Nat) (st : BG.OState)
    (h : st.gate = true) : BG.saveCurrentBookmarks fuel st = st := by
  simp [BG.saveCurrentBookmarks, h]

/-- `saveCurrentBookmarksToBackup` returns immediately when the gate is set. -/
theorem P0_save_skipped_when_gate (fuel : Nat) (st : P0.OState)
    (h : st.gate = true) : P0.saveCurrentBookmarksToBackup fuel st = st := by
  simp [P0.saveCurrentBookmarksToBackup, h]

/-- Unfolding of a background.js toggle that proceeds: the gate is set, the
save call is skipped (the gate it just set suppresses it), and the toggle
reduces to resolving the stored source folder id and loading it. -/
theorem BG_toggle_unfold (fuel : Nat) (st : BG.OState) (h : st.gate = false) :
    BG.toggleBookmarks fuel st =
      (match (if BG.nextMode st.currentMode = "private"
              then st.privateFolderId else st.workFolderId) with
       | none => { st with gate := true, resetPending := true }
       | some sid =>
          let r := BG.copyBookmarks fuel st.store sid BG.BOOKMARKS_BAR_ID true
          if r.2 then
            { st with
              gate := true,
              store := r.1,
              currentMode := some (BG.nextMode st.currentMode),
              resetPending := true }
          else { st with gate := true, store := r.1, resetPending := true }) := by
  simp only [BG.toggleBookmarks, h, BG_save_skipped_when_gate, Bool.false_eq_true,
    if_false]

/-- Unfolding of a part_000 toggle (it always proceeds): the gate is set,
the save call is skipped (the gate it just set suppresses it), and the
toggle reduces to resolving the next folder by name and loading it. -/
theorem P0_toggle_unfold (fuel : Nat) (st : P0.OState) :
    P0.toggleBookmarks fuel st =
      (match P0.findFolderByName st.store P0.OTHER_BOOKMARKS_ID
              P0.BACKUP_FOLDER_NAME with
       | none => { st with gate := true, resetPending := true }
       | some backupFolder =>
          match P0.findFolderByName st.store backupFolder.id
                  (if P0.nextFolder st.activeFolder = "private"
                   then P0.PRIVATE_FOLDER_NAME else P0.WORK_FOLDER_NAME) with
          | none => { st with gate := true, resetPending := true }
          | some sourceFolder =>
              { st with
                gate := true,
                store := P0.copyBookmarks fuel
                  (P0.clearBookmarksBar st.store) sourceFolder.id P0.BAR_ID,
                activeFolder := some (P0.nextFolder st.activeFolder),
                resetPending := true }) := by
  simp only [P0.toggleBookmarks, P0_save_skipped_when_gate]

/-- A background.js toggle is a no-op when the gate is already set. -/
theorem BG_toggle_gate_noop (fuel : Nat) (st : BG.OState) (h : st.gate = true) :
    BG.toggleBookmarks fuel st = st := by
  simp [BG.toggleBookmarks, h]

/-- A background.js toggle that proceeds always schedules the gate reset. -/
theorem BG_toggle_resetPending (fuel : Nat) (st : BG.OState)
    (h : st.gate = false) : (BG.toggleBookmarks fuel st).resetPending = true := by
  rw [BG_toggle_unfold _ _ h]
  cases hs : (if BG.nextMode st.currentMode = "private"
              then st.privateFolderId else st.workFolderId) with
  | none => rfl
  | some sid =>
      dsimp only
      split <;> rfl

/-- A part_000 toggle always schedules the gate reset. -/
theorem P0_toggle_resetPending (fuel : Nat) (st : P0.OState) :
    (P0.toggleBookmarks fuel st).resetPending = true := by
  rw [P0_toggle_unfold]
  cases hb : P0.findFolderByName st.store P0.OTHER_BOOKMARKS_ID
      P0.BACKUP_FOLDER_NAME with
  | none => rfl
  | some backupFolder =>
      dsimp only
      split <;> rfl

/-- A background.js toggle whose next folder id is unset aborts cleanly:
only the gate and the scheduled reset change. -/
theorem BG_toggle_abort_unset (fuel : Nat) (st : BG.OState)
    (h : st.gate = false)
    (hs : (if BG.nextMode st.currentMode = "private"
           then st.privateFolderId else st.workFolderId) = none) :
    BG.toggleBookmarks fuel st = { st with gate := true, resetPending := true } := by
  rw [BG_toggle_unfold _ _ h, hs]

/-- A background.js toggle with a resolvable source id and a successful copy
loads the bar and flips the persisted mode. -/
theorem BG_toggle_success (fuel : Nat) (st : BG.OState) (sid : Nat)
    (h : st.gate = false)
    (hs : (if BG.nextMode st.currentMode = "private"
           then st.privateFolderId else st.workFolderId) = some sid)
    (hc : (BG.copyBookmarks fuel st.store sid BG.BOOKMARKS_BAR_ID true).2 = true) :
    BG.toggleBookmarks fuel st =
      { st with
        gate := true,
        store := (BG.copyBookmarks fuel st.store sid BG.BOOKMARKS_BAR_ID true).1,
        currentMode := some (BG.nextMode st.currentMode),
        resetPending := true } := by
  rw [BG_toggle_unfold _ _ h, hs]
  dsimp only
  rw [if_pos hc]

/-- A background.js toggle whose copy fails (e.g. the cached source id no
longer resolves) keeps the mode but keeps the partially mutated store. -/
theorem BG_toggle_copyfail (fuel : Nat) (st : BG.OState) (sid : Nat)
    (h : st.gate = false)
    (hs : (if BG.nextMode st.currentMode = "private"
           then st.privateFolderId else st.workFolderId) = some sid)
    (hc : (BG.copyBookmarks fuel st.store sid BG.BOOKMARKS_BAR_ID true).2 = false) :
    BG.toggleBookmarks fuel st =
      { st with
        gate := true,
        store := (BG.copyBookmarks fuel st.store sid BG.BOOKMARKS_BAR_ID true).1,
        resetPending := true } := by
  rw [BG_toggle_unfold _ _ h, hs]
  dsimp only
  rw [if_neg (by simp [hc])]

/-- A part_000 toggle aborts cleanly when the backup root is not found. -/
theorem P0_toggle_abort_backup (fuel : Nat) (st : P0.OState)
    (hb : P0.findFolderByName st.store P0.OTHER_BOOKMARKS_ID
            P0.BACKUP_FOLDER_NAME = none) :
    P0.toggleBookmarks fuel st = { st with gate := true, resetPending := true } := by
  rw [P0_toggle_unfold, hb]

/-- A part_000 toggle aborts cleanly when the next folder is not found. -/
theorem P0_toggle_abort_source (fuel : Nat) (st : P0.OState)
    (backupFolder : BNode)
    (hb : P0.findFolderByName st.store P0.OTHER_BOOKMARKS_ID
            P0.BACKUP_FOLDER_NAME = some backupFolder)
    (hsf : P0.findFolderByName st.store backupFolder.id
            (if P0.nextFolder st.activeFolder = "private"
             then P0.PRIVATE_FOLDER_NAME else P0.WORK_FOLDER_NAME) = none) :
    P0.toggleBookmarks fuel st = { st with gate := true, resetPending := true } := by
  rw [P0_toggle_unfold, hb]
  dsimp only
  rw [hsf]

/-- A part_000 toggle with resolvable folders clears and loads the bar and
flips `activeFolder` — regardless of the gate. -/
theorem P0_toggle_success (fuel : Nat) (st : P0.OState)
    (backupFolder sourceFolder : BNode)
    (hb : P0.findFolderByName st.store P0.OTHER_BOOKMARKS_ID
            P0.BACKUP_FOLDER_NAME = some backupFolder)
    (hsf : P0.findFolderByName st.store backupFolder.id
            (if P0.nextFolder st.activeFolder = "private"
             then P0.PRIVATE_FOLDER_NAME else P0.WORK_FOLDER_NAME) =
             some sourceFolder) :
    P0.toggleBookmarks fuel st =
      { st with
        gate := true,
        store := P0.copyBookmarks fuel (P0.clearBookmarksBar st.store)
                   sourceFolder.id P0.BAR_ID,
        activeFolder := some (P0.nextFolder st.activeFolder),
        resetPending := true } := by
  rw [P0_toggle_unfold, hb]
  dsimp only
  rw [hsf]

/-- Nodes surviving a `removeTree` were already in the store. -/
theorem removeTree_nodes_sub (s : Store) (i : Nat) :
    ∀ n ∈ (removeTree s i).nodes, n ∈ s.nodes := by
  intro n hn
  exact (List.mem_filter.mp hn).1

/-- Nodes surviving a `clearChildren` were already in the store. -/
theorem clearChildren_nodes_sub (s : Store) (pid : Nat) :
    ∀ n ∈ (clearChildren s pid).nodes, n ∈ s.nodes := by
  unfold clearChildren
  generalize getChildren s pid = l
  induction l generalizing s with
  | nil => intro n hn; exact hn
  | cons c cs ih =>
      intro n hn
      exact removeTree_nodes_sub _ _ _ (ih (removeTree s c.id) n hn)

/-- A missing id is still missing after a `clearChildren`. -/
theorem existsNode_clearChildren_false (s : Store) (pid i : Nat)
    (h : existsNode s i = false) : existsNode (clearChildren s pid) i = false := by
  rw [existsNode, List.any_eq_false] at h ⊢
  intro n hn
  exact h n (clearChildren_nodes_sub s pid n hn)

/-- C10: on every toggle path of both revisions — success, missing-folder
abort, and failed copy alike — the `finally` block schedules the delayed
step that clears the in-progress gate, and firing that step leaves the gate
clear; moreover, if every state with the gate set has the reset scheduled,
a background.js toggle preserves that property, so the gate is never left
permanently set and auto-save is never permanently disabled. -/
theorem C10_gate_reset_always_scheduled :
    (∀ (fuel : Nat) (st : BG.OState), st.gate = false →
      (BG.toggleBookmarks fuel st).resetPending = true) ∧
    (∀ (fuel : Nat) (st : BG.OState), st.gate = false →
      (BG.fireReset (BG.toggleBookmarks fuel st)).gate = false) ∧
    (∀ (fuel : Nat) (st : BG.OState), (st.gate = true → st.resetPending = true) →
      (BG.toggleBookmarks fuel st).gate = true →
      (BG.toggleBookmarks fuel st).resetPending = true) ∧
    (∀ (fuel : Nat) (st : P0.OState),
      (P0.toggleBookmarks fuel st).resetPending = true) ∧
    (∀ (fuel : Nat) (st : P0.OState),
      (P0.fireReset (P0.toggleBookmarks fuel st)).gate = false) := by
  refine ⟨?_, ?_, ?_, ?_, ?_⟩
  · exact fun fuel st h => BG_toggle_resetPending fuel st h
  · intro fuel st h; rfl
  · intro fuel st hinv hg
    cases hgate : st.gate with
    | true => rw [BG_toggle_gate_noop fuel st hgate] at hg ⊢; exact hinv hg
    | false => exact BG_toggle_resetPending fuel st hgate
  · exact fun fuel st => P0_toggle_resetPending fuel st
  · intro fuel st; rfl

/-- C10 witness: the guarantees instantiated at the concrete scenario
states. -/
theorem C10_witness :
    (BG.toggleBookmarks 10 bgScenarioState).resetPending = true ∧
    (BG.fireReset (BG.toggleBookmarks 10 bgScenarioState)).gate = false ∧
    (BG.toggleBookmarks 10 bgDanglingState).resetPending = true ∧
    (P0.toggleBookmarks 10 p0ScenarioState).resetPending = true ∧
    (P0.fireReset (P0.toggleBookmarks 10 p0ScenarioState)).gate = false := by
  obtain ⟨h1, h2, h3, h4, h5⟩ := C10_gate_reset_always_scheduled
  exact ⟨h1 10 bgScenarioState rfl, h2 10 bgScenarioState rfl,
    h1 10 bgDanglingState rfl, h4 10 p0ScenarioState, h5 10 p0ScenarioState⟩

/-- C3 (amended): in background.js a second toggle while one is in progress
is a no-op (the state is returned unchanged, nothing is read or written),
and a completed toggle changes the mode flag exactly once, to the
complement of the current mode.  In part_000, however, the toggle has no
in-progress check: an invocation while the gate is set still proceeds —
only its save step is suppressed by the gate — and flips `activeFolder`. -/
theorem C3_amended_second_toggle :
    (∀ (fuel : Nat) (st : BG.OState), st.gate = true →
      BG.toggleBookmarks fuel st = st) ∧
    (∀ (fuel : Nat) (st : BG.OState) (sid : Nat), st.gate = false →
      (if BG.nextMode st.currentMode = "private"
       then st.privateFolderId else st.workFolderId) = some sid →
      (BG.copyBookmarks fuel st.store sid BG.BOOKMARKS_BAR_ID true).2 = true →
      (BG.toggleBookmarks fuel st).currentMode =
        some (BG.nextMode st.currentMode)) ∧
    (∀ (fuel : Nat) (st : P0.OState) (backupFolder sourceFolder : BNode),
      st.gate = true →
      P0.findFolderByName st.store P0.OTHER_BOOKMARKS_ID
        P0.BACKUP_FOLDER_NAME = some backupFolder →
      P0.findFolderByName st.store backupFolder.id
        (if P0.nextFolder st.activeFolder = "private"
         then P0.PRIVATE_FOLDER_NAME else P0.WORK_FOLDER_NAME) =
        some sourceFolder →
      (P0.toggleBookmarks fuel st).activeFolder =
        some (P0.nextFolder st.activeFolder)) := by
  refine ⟨?_, ?_, ?_⟩
  · exact fun fuel st h => BG_toggle_gate_noop fuel st h
  · intro fuel st sid h hs hc
    rw [BG_toggle_success fuel st sid h hs hc]
  · intro fuel st backupFolder sourceFolder _ hb hsf
    rw [P0_toggle_success fuel st backupFolder sourceFolder hb hsf]

/-- C3 witness: the amended guarantees at the concrete scenario states. -/
theorem C3_witness :
    BG.toggleBookmarks 10 { bgScenarioState with gate := true } =
      { bgScenarioState with gate := true } ∧
    (BG.toggleBookmarks 10 bgScenarioState).currentMode = some "work" ∧
    (P0.toggleBookmarks 10 { p0ScenarioState with gate := true }).activeFolder =
      some "work" := by
  obtain ⟨h1, h2, h3⟩ := C3_amended_second_toggle
  refine ⟨h1 10 _ rfl, h2 10 bgScenarioState 5 rfl (by decide) (by decide), ?_⟩
  exact h3 10 { p0ScenarioState with gate := true }
    ⟨3, 2, "Bookmark Backup", none⟩ ⟨5, 3, "Work Bookmarks", none⟩
    rfl (by decide) (by decide)

/-- C4 (amended): when the next mode's backup folder fails to *resolve* —
in background.js the stored folder id is absent, in part_000 the backup
root or the named folder is not found — the toggle aborts, leaving the
whole store (hence the bar) and the persisted mode unchanged.  But in
background.js, when a cached folder id is still present while the folder
itself was deleted externally, the failure is only detected after the bar
has been cleared: the mode is unchanged, the bar is left empty. -/
theorem C4_amended_abort_leaves_state :
    (∀ (fuel : Nat) (st : BG.OState), st.gate = false →
      (if BG.nextMode st.currentMode = "private"
       then st.privateFolderId else st.workFolderId) = none →
      BG.toggleBookmarks fuel st =
        { st with gate := true, resetPending := true }) ∧
    (∀ (fuel : Nat) (st : P0.OState),
      P0.findFolderByName st.store P0.OTHER_BOOKMARKS_ID
        P0.BACKUP_FOLDER_NAME = none →
      P0.toggleBookmarks fuel st =
        { st with gate := true, resetPending := true }) ∧
    (∀ (fuel : Nat) (st : P0.OState) (backupFolder : BNode),
      P0.findFolderByName st.store P0.OTHER_BOOKMARKS_ID
        P0.BACKUP_FOLDER_NAME = some backupFolder →
      P0.findFolderByName st.store backupFolder.id
        (if P0.nextFolder st.activeFolder = "private"
         then P0.PRIVATE_FOLDER_NAME else P0.WORK_FOLDER_NAME) = none →
      P0.toggleBookmarks fuel st =
        { st with gate := true, resetPending := true }) ∧
    (∀ (fuel : Nat) (st : BG.OState) (sid : Nat), st.gate = false →
      (if BG.nextMode st.currentMode = "private"
       then st.privateFolderId else st.workFolderId) = some sid →
      existsNode st.store sid = false →
      existsNode st.store BG.BOOKMARKS_BAR_ID = true →
      BG.toggleBookmarks (fuel + 1) st =
        { st with
          gate := true,
          store := clearChildren st.store BG.BOOKMARKS_BAR_ID,
          resetPending := true }) := by
  refine ⟨?_, ?_, ?_, ?_⟩
  · exact fun fuel st h hs => BG_toggle_abort_unset fuel st h hs
  · exact fun fuel st hb => P0_toggle_abort_backup fuel st hb
  · exact fun fuel st bf hb hsf => P0_toggle_abort_source fuel st bf hb hsf
  · intro fuel st sid h hs hmiss hbar
    have hcopy : BG.copyBookmarks (fuel + 1) st.store sid BG.BOOKMARKS_BAR_ID true =
        (clearChildren st.store BG.BOOKMARKS_BAR_ID, false) := by
      simp [BG.copyBookmarks, hbar, existsNode_clearChildren_false _ _ _ hmiss]
    rw [BG_toggle_copyfail (fuel + 1) st sid h hs (by rw [hcopy])]
    rw [hcopy]

/-- C4 witness: the amended guarantees at concrete states (unset work id;
missing backup root; missing Work folder; dangling cached work id). -/
theorem C4_witness :
    BG.toggleBookmarks 10 { bgScenarioState with workFolderId := none } =
      { bgScenarioState with
        workFolderId := none,
        gate := true,
        resetPending := true } ∧
    P0.toggleBookmarks 10 p0NoBackupState =
      { p0NoBackupState with gate := true, resetPending := true } ∧
    P0.toggleBookmarks 10 p0NoWorkState =
      { p0NoWorkState with gate := true, resetPending := true } ∧
    BG.toggleBookmarks 10 bgDanglingState =
      { bgDanglingState with
        gate := true,
        store := clearChildren bgDanglingState.store BG.BOOKMARKS_BAR_ID,
        resetPending := true } := by
  obtain ⟨h1, h2, h3, h4⟩ := C4_amended_abort_leaves_state
  refine ⟨h1 10 _ rfl (by decide), h2 10 _ (by decide), ?_, ?_⟩
  · exact h3 10 p0NoWorkState ⟨3, 2, "Bookmark Backup", none⟩ (by decide) (by decide)
  · exact h4 9 bgDanglingState 9 rfl (by decide) (by decide) (by decide)

/-- After `n+1` background.js notifications from a clean timer world,
exactly the most recent timer is pending and `saveTimeout` holds it. -/
theorem BG_debounce_iter (n : Nat) :
    Nat.iterate BGhandleBookmarkChange (n + 1) debounceInit =
      ⟨n + 1, [n], some n⟩ := by
  induction n with
  | zero => rfl
  | succ n ih =>
      rw [Function.iterate_succ_apply', ih]
      simp [BGhandleBookmarkChange, List.erase_cons_head]

/-- After `n` part_000 notifications from a clean timer world, all `n`
timers are pending. -/
theorem P0_debounce_iter (n : Nat) :
    Nat.iterate P0handleBookmarkChange n debounceInit = ⟨n, List.range n, none⟩ := by
  induction n with
  | zero => rfl
  | succ n ih =>
      rw [Function.iterate_succ_apply', ih]
      simp [P0handleBookmarkChange, List.range_succ]

/-- C5 (amended): in background.js the debounce is single-slot — each new
notification cancels the timer held in `saveTimeout` and replaces it, so
after any `n ≥ 1` rapid notifications exactly one auto-save timer (the most
recent) is pending and will fire.  In part_000 each notification schedules
an independent delayed save and nothing is ever cancelled, so `n`
notifications leave `n` pending auto-saves, each of which fires. -/
theorem C5_amended_debounce_behavior :
    (∀ n : Nat, 1 ≤ n →
      (Nat.iterate BGhandleBookmarkChange n debounceInit).pending = [n - 1]) ∧
    (∀ n : Nat,
      (Nat.iterate P0handleBookmarkChange n debounceInit).pending.length = n) := by
  constructor
  · intro n hn
    cases n with
    | zero => exact absurd hn (by decide)
    | succ m => rw [BG_debounce_iter m]; rfl
  · intro n
    rw [P0_debounce_iter n]
    simp

/-- C5 witness: three rapid notifications leave one pending auto-save in
background.js and three in part_000. -/
theorem C5_witness :
    (Nat.iterate BGhandleBookmarkChange 3 debounceInit).pending = [2] ∧
    (Nat.iterate P0handleBookmarkChange 3 debounceInit).pending.length = 3 :=
  ⟨C5_amended_debounce_behavior.1 3 (by decide), C5_amended_debounce_behavior.2 3⟩

/-- C9 (amended): the mode flag takes the two values `private` and `work`.
background.js reads it with a `|| "private"` default, so an unset flag acts
as `private` both in the auto-save (which then targets the private folder
id) and in the toggle (whose next mode is then `work`).  part_000 has no
such default: its auto-save returns without saving when `activeFolder` is
unset, and its toggle computes the next folder as `private` when the flag
is unset (an unset flag is not `=== 'private'`). -/
theorem C9_amended_mode_defaults :
    BG.readMode none = "private" ∧
    BG.nextMode none = "work" ∧
    (∀ (fuel : Nat) (st : BG.OState) (tid : Nat), st.gate = false →
      st.currentMode = none → st.privateFolderId = some tid →
      BG.saveCurrentBookmarks fuel st =
        { st with
          store := (BG.copyBookmarks fuel st.store BG.BOOKMARKS_BAR_ID tid true).1 }) ∧
    (∀ (fuel : Nat) (st : P0.OState), st.activeFolder = none →
      P0.saveCurrentBookmarksToBackup fuel st = st) ∧
    P0.nextFolder none = "private" := by
  refine ⟨rfl, rfl, ?_, ?_, rfl⟩
  · intro fuel st tid h hm hp
    simp [BG.saveCurrentBookmarks, h, hm, hp, BG.readMode, jsOr]
  · intro fuel st ha
    simp [P0.saveCurrentBookmarksToBackup, ha, jsTruthy]

/-- C9 witness: the amended guarantees at the concrete scenario states. -/
theorem C9_witness :
    BG.saveCurrentBookmarks 10 { bgScenarioState with currentMode := none } =
      { bgScenarioState with
        currentMode := none,
        store := (BG.copyBookmarks 10 bgScenarioStore BG.BOOKMARKS_BAR_ID 4 true).1 } ∧
    P0.saveCurrentBookmarksToBackup 10
        { p0ScenarioState with activeFolder := none } =
      { p0ScenarioState with activeFolder := none } := by
  obtain ⟨-, -, h3, h4, -⟩ := C9_amended_mode_defaults
  exact ⟨h3 10 _ 4 rfl rfl rfl, h4 10 _ rfl⟩

/-- `find?` over an append whose first part has no match. -/
theorem find?_append_of_none {α : Type} (p : α → Bool) (l1 l2 : List α)
    (h : l1.find? p = none) : (l1 ++ l2).find? p = l2.find? p := by
  induction l1 with
  | nil => rfl
  | cons a l ih =>
      rw [List.find?_cons] at h
      rw [List.cons_append, List.find?_cons]
      cases hp : p a with
      | true => simp [hp] at h
      | false =>
          simp only [hp] at h ⊢
          exact ih h

/-- C6: `ensureFolder` (the find-or-create of background.js, matching a
child by exact title equality and absence of a truthy url) is idempotent:
whenever a call returns folder `f` with resulting store `s'`, calling it
again on `s'` returns the same folder and the same store, so repeated calls
(and hence a repeated bootstrap) never duplicate a folder; the returned
folder carries exactly the requested name and no url, and the store is left
unchanged precisely when a child with exactly that title (no case folding
or trimming) and no url already existed. -/
theorem C6_ensureFolder_idempotent :
    ∀ (s s' : Store) (parentId : Nat) (name : String) (f : BNode),
      WF s →
      BG.ensureFolder s parentId name = (some f, s') →
      BG.ensureFolder s' parentId name = (some f, s') ∧
      f.title = name ∧ f.url = none ∧
      (s' = s ↔ ∃ c ∈ getChildren s parentId, c.title = name ∧ c.url = none) := by
  intro s s' parentId name f hwf h
  unfold BG.ensureFolder at h
  cases hex : existsNode s parentId with
  | false => rw [hex] at h; simp at h
  | true =>
      rw [hex] at h
      simp only [if_true] at h
      cases hfind : (getChildren s parentId).find?
          (fun child => child.title == name && !(jsTruthy child.url)) with
      | some ex =>
          rw [hfind] at h
          injection h with hf hs
          have hfe : ex = f := Option.some.inj hf
          subst hs
          have hp := List.find?_some hfind
          have hmem : ex ∈ getChildren s parentId := List.mem_of_find?_eq_some hfind
          have hmemn : ex ∈ s.nodes := (List.mem_filter.mp hmem).1
          simp only [Bool.and_eq_true] at hp
          obtain ⟨hteq, hturl⟩ := hp
          have htitle : ex.title = name := eq_of_beq hteq
          have hurl : ex.url = none := by
            cases hu : ex.url with
            | none => rfl
            | some u =>
                rw [hu] at hturl
                have : u = "" := by
                  by_contra hne
                  simp [jsTruthy, hne] at hturl
                subst this
                exact absurd hu (hwf.2.2.2.1 ex hmemn)
          refine ⟨?_, hfe ▸ htitle, hfe ▸ hurl, ?_⟩
          · unfold BG.ensureFolder
            rw [hex, hfind]
            simp [hf]
          · exact ⟨fun _ => ⟨ex, hmem, htitle, hurl⟩, fun _ => rfl⟩
      | none =>
          rw [hfind] at h
          simp only [Prod.mk.injEq, Option.some.injEq] at h
          obtain ⟨hf, hs⟩ := h
          refine ⟨?_, ?_, ?_, ?_⟩
          · unfold BG.ensureFolder
            have hex' : existsNode s' parentId = true := by
              rw [← hs]
              simp only [existsNode, createNode, List.any_append]
              rw [existsNode] at hex
              simp [hex]
            rw [hex']
            simp only [if_true]
            have hch : getChildren s' parentId =
                getChildren s parentId ++ [(createNode s parentId name none).1] := by
              rw [← hs]
              simp [getChildren, createNode, List.filter_append]
            rw [hch, find?_append_of_none _ _ _ hfind]
            simp [List.find?_cons, createNode, jsTruthy, ← hf, ← hs]
          · rw [← hf]
            rfl
          · rw [← hf]
            rfl
          · constructor
            · intro heq
              exfalso
              have : s'.nodes.length = s.nodes.length + 1 := by
                rw [← hs]
                simp [createNode]
              rw [heq] at this
              omega
            · rintro ⟨c, hc, hct, hcu⟩
              exfalso
              have := List.find?_eq_none.mp hfind c hc
              simp [hct, hcu, jsTruthy] at this

/-- C6 witness: creating then re-ensuring a folder in the scenario store. -/
theorem C6_witness :
    BG.ensureFolder
        ⟨bgScenarioStore.nodes ++ [⟨8, 3, "New Folder", none⟩], 9⟩ 3 "New Folder" =
      (some ⟨8, 3, "New Folder", none⟩,
       ⟨bgScenarioStore.nodes ++ [⟨8, 3, "New Folder", none⟩], 9⟩) ∧
    (⟨8, 3, "New Folder", none⟩ : BNode).title = "New Folder" := by
  have h := C6_ensureFolder_idempotent bgScenarioStore
    ⟨bgScenarioStore.nodes ++ [⟨8, 3, "New Folder", none⟩], 9⟩ 3 "New Folder"
    ⟨8, 3, "New Folder", none⟩ (by decide) (by decide)
  exact ⟨h.1, h.2.1⟩

/-- C7: a part_000 `copyBookmarks` call whose destination id does not
resolve, or resolves to a node carrying a url (not a folder), returns with
the store exactly as it was — no node is created or deleted; and under the
precondition that the destination exists and is a folder, the call takes
the copy branch, so the invalid-destination error path is unreachable. -/
theorem C7_copy_invalid_destination_no_writes :
    ∀ (fuel : Nat) (s : Store) (sourceId destId : Nat),
      (getNode s destId = none → P0.copyBookmarks fuel s sourceId destId = s) ∧
      (∀ d, getNode s destId = some d → d.url.isSome = true →
        (∀ n ∈ s.nodes, n.url ≠ some "") →
        P0.copyBookmarks fuel s sourceId destId = s) ∧
      (∀ d (F : Nat), fuel = F + 1 → getNode s destId = some d → d.url = none →
        P0.copyBookmarks fuel s sourceId destId =
          (if existsNode s sourceId then
            P0.copyLoop (P0.copyBookmarks F) s (getChildren s sourceId) destId
           else s)) := by
  intro fuel s sourceId destId
  refine ⟨?_, ?_, ?_⟩
  · intro h
    cases fuel with
    | zero => rfl
    | succ F => simp [P0.copyBookmarks, h]
  · intro d h hsome hne
    cases fuel with
    | zero => rfl
    | succ F =>
        have hmem : d ∈ s.nodes := List.mem_of_find?_eq_some h
        have hd : jsTruthy d.url = true := by
          cases hu : d.url with
          | none => rw [hu] at hsome; simp at hsome
          | some u =>
              have hne' : u ≠ "" := by
                intro he
                exact hne d hmem (he ▸ hu)
              simp [jsTruthy, hne']
        simp [P0.copyBookmarks, h, hd]
  · intro d F hF h hu
    subst hF
    cases hex : existsNode s sourceId with
    | true => simp [P0.copyBookmarks, h, hu, jsTruthy, hex]
    | false => simp [P0.copyBookmarks, h, hu, jsTruthy, hex]

/-- C7 witness: at the part_000 scenario store, copying into a missing id
(99) or into a leaf (node 6) leaves the store untouched; copying into the
folder 4 takes the copy branch. -/
theorem C7_witness :
    P0.copyBookmarks 10 p0ScenarioStore 1 99 = p0ScenarioStore ∧
    P0.copyBookmarks 10 p0ScenarioStore 1 6 = p0ScenarioStore ∧
    P0.copyBookmarks 10 p0ScenarioStore 1 4 =
      P0.copyLoop (P0.copyBookmarks 9) p0ScenarioStore
        (getChildren p0ScenarioStore 1) 4 := by
  refine ⟨(C7_copy_invalid_destination_no_writes 10 p0ScenarioStore 1 99).1 rfl,
    (C7_copy_invalid_destination_no_writes 10 p0ScenarioStore 1 6).2.1
      ⟨6, 1, "A", some "http://a"⟩ rfl rfl (by decide), ?_⟩
  have h := (C7_copy_invalid_destination_no_writes 10 p0ScenarioStore 1 4).2.2
    ⟨4, 3, "Private Bookmarks", none⟩ 9 rfl rfl rfl
  rw [h]
  rfl

/-! Helper lemmas for the copy refinement (C8). -/

/-- A url that is not the empty string passes through `item.url || undefined`
unchanged. -/
theorem jsUrlOrUndefined_id {u : Option String} (h : u ≠ some "") :
    jsUrlOrUndefined u = u := by
  cases u with
  | none => rfl
  | some v =>
      have hv : v ≠ "" := fun he => h (he ▸ rfl)
      simp [jsUrlOrUndefined, jsTruthy, hv]

/-- In a store with distinct ids, two member nodes with the same id are the
same node. -/
theorem id_inj {s : Store} (hnd : (s.nodes.map (fun n => n.id)).Nodup)
    {n m : BNode} (hn : n ∈ s.nodes) (hm : m ∈ s.nodes) (h : n.id = m.id) :
    n = m := by
  have := List.inj_on_of_nodup_map hnd hn hm h
  exact this

/-- Membership gives a positive existence check. -/
theorem existsNode_of_mem {s : Store} {n : BNode} (hn : n ∈ s.nodes) :
    existsNode s n.id = true := by
  rw [existsNode, List.any_eq_true]
  exact ⟨n, hn, by simp⟩

/-- `Extends` is reflexive. -/
theorem Extends_refl (s : Store) (dst : Nat) : Extends s s dst :=
  ⟨Nat.le_refl _, [], by simp, by simp⟩

/-- `Extends` composes at the same destination. -/
theorem Extends_trans_same {s s' s'' : Store} {dst : Nat}
    (h1 : Extends s s' dst) (h2 : Extends s' s'' dst) : Extends s s'' dst := by
  obtain ⟨hle1, e1, hn1, hp1⟩ := h1
  obtain ⟨hle2, e2, hn2, hp2⟩ := h2
  refine ⟨Nat.le_trans hle1 hle2, e1 ++ e2, by rw [hn2, hn1, List.append_assoc], ?_⟩
  intro e he
  rcases List.mem_append.mp he with he | he
  · exact hp1 e he
  · refine ⟨?_, Nat.le_trans hle1 (hp2 e he).2⟩
    rcases (hp2 e he).1 with hp | hp
    · exact Or.inl hp
    · exact Or.inr (Nat.le_trans hle1 hp)

/-- `Extends` absorbs a further extension whose destination is fresh. -/
theorem Extends_trans_fresh {s s' s'' : Store} {dst dst' : Nat}
    (h1 : Extends s s' dst) (hfresh : s.nextId ≤ dst')
    (h2 : Extends s' s'' dst') : Extends s s'' dst := by
  obtain ⟨hle1, e1, hn1, hp1⟩ := h1
  obtain ⟨hle2, e2, hn2, hp2⟩ := h2
  refine ⟨Nat.le_trans hle1 hle2, e1 ++ e2, by rw [hn2, hn1, List.append_assoc], ?_⟩
  intro e he
  rcases List.mem_append.mp he with he | he
  · exact hp1 e he
  · refine ⟨?_, Nat.le_trans hle1 (hp2 e he).2⟩
    rcases (hp2 e he).1 with hp | hp
    · exact Or.inr (hp ▸ hfresh)
    · exact Or.inr (Nat.le_trans hle1 hp)

/-- Creating a node under `dst` is an extension for `dst`. -/
theorem Extends_create (s : Store) (dst : Nat) (t : String) (u : Option String) :
    Extends s (createNode s dst t u).2 dst := by
  refine ⟨Nat.le_succ _, [⟨s.nextId, dst, t, u⟩], rfl, ?_⟩
  intro e he
  rw [List.mem_singleton] at he
  subst he
  exact ⟨Or.inl rfl, Nat.le_refl _⟩

/-- The children of an old node other than the destination are unchanged by
an extension. -/
theorem Extends_getChildren {s s' : Store} {dst : Nat} (h : Extends s s' dst)
    (o : Nat) (ho : o < s.nextId) (hod : o ≠ dst) :
    getChildren s' o = getChildren s o := by
  obtain ⟨hle, extra, hnodes, hpar⟩ := h
  rw [getChildren, getChildren, hnodes, List.filter_append]
  have he : extra.filter (fun n => n.parentId == o) = [] := by
    rw [List.filter_eq_nil_iff]
    intro e hee
    simp only [beq_iff_eq]
    rcases (hpar e hee).1 with hp | hp
    · rw [hp]; exact fun hh => hod hh.symm
    · omega
  rw [he, List.append_nil]

/-- Every id reachable from an in-range root stays below `nextId`. -/
theorem reach_bound {s : Store} (hid : ∀ n ∈ s.nodes, n.id < s.nextId) :
    ∀ (F o : Nat), o < s.nextId → ∀ i ∈ reachIds s F o, i < s.nextId := by
  intro F
  induction F with
  | zero => intro o _ i hi; simp [reachIds] at hi
  | succ F ih =>
      intro o ho i hi
      rw [reachIds] at hi
      rcases List.mem_cons.mp hi with rfl | hi
      · exact ho
      · rw [List.mem_flatten] at hi
        obtain ⟨l, hl, hil⟩ := hi
        rw [List.mem_map] at hl
        obtain ⟨c, hc, rfl⟩ := hl
        have hcn : c ∈ s.nodes := (List.mem_filter.mp hc).1
        exact ih c.id (hid c hcn) i hil

/-- A root is in its own reach set (at positive depth). -/
theorem mem_reach_self (s : Store) (F o : Nat) : o ∈ reachIds s (F + 1) o := by
  rw [reachIds]
  exact List.mem_cons_self o _

/-- The reach set of a child is included in the parent's one-deeper reach. -/
theorem reach_sub {s : Store} {c : BNode} {o : Nat}
    (hc : c ∈ getChildren s o) (F : Nat) :
    ∀ i ∈ reachIds s F c.id, i ∈ reachIds s (F + 1) o := by
  intro i hi
  rw [reachIds]
  refine List.mem_cons_of_mem _ ?_
  rw [List.mem_flatten]
  exact ⟨reachIds s F c.id, List.mem_map.mpr ⟨c, hc, rfl⟩, hi⟩

/-- Reach sets of untouched old regions are stable under an extension. -/
theorem Extends_reachIds {s s' : Store} {dst : Nat} (h : Extends s s' dst) :
    ∀ (F o : Nat), (∀ i ∈ reachIds s F o, i < s.nextId) →
      dst ∉ reachIds s F o → reachIds s' F o = reachIds s F o := by
  intro F
  induction F with
  | zero => intro o _ _; rfl
  | succ F ih =>
      intro o hbound hdst
      have ho : o < s.nextId := hbound o (mem_reach_self s F o)
      have hod : o ≠ dst := by
        intro he
        exact hdst (he ▸ mem_reach_self s F o)
      rw [reachIds, reachIds, Extends_getChildren h o ho hod]
      congr 1
      congr 1
      apply List.map_congr_left
      intro c hc
      apply ih
      · intro i hi
        exact hbound i (reach_sub hc F i hi)
      · intro hm
        exact hdst (reach_sub hc F dst hm)

/-- Extraction of untouched old regions is stable under an extension. -/
theorem Extends_extractChildren {s s' : Store} {dst : Nat} (h : Extends s s' dst) :
    ∀ (F o : Nat), (∀ i ∈ reachIds s F o, i < s.nextId) →
      dst ∉ reachIds s F o → extractChildren s' F o = extractChildren s F o := by
  intro F
  induction F with
  | zero => intro o _ _; rfl
  | succ F ih =>
      intro o hbound hdst
      have ho : o < s.nextId := hbound o (mem_reach_self s F o)
      have hod : o ≠ dst := by
        intro he
        exact hdst (he ▸ mem_reach_self s F o)
      rw [extractChildren, extractChildren, Extends_getChildren h o ho hod]
      apply List.map_congr_left
      intro c hc
      congr 1
      apply ih
      · intro i hi
        exact hbound i (reach_sub hc F i hi)
      · intro hm
        exact hdst (reach_sub hc F dst hm)

/-- Creating a node under an existing folder preserves well-formedness,
provided the new url is not the empty string. -/
theorem createNode_wf {s : Store} (hwf : WF s) {dst : Nat}
    (hdlt : dst < s.nextId)
    (hdf : ∀ dn ∈ s.nodes, dn.id = dst → dn.url = none)
    (t : String) {u : Option String} (hu : u ≠ some "") :
    WF (createNode s dst t u).2 := by
  obtain ⟨hnd, hid, hpar, hurl, hpf⟩ := hwf
  refine ⟨?_, ?_, ?_, ?_, ?_⟩
  · simp only [createNode, List.map_append, List.map_cons, List.map_nil]
    rw [List.nodup_append]
    refine ⟨hnd, List.nodup_singleton _, ?_⟩
    intro a ha hb
    rw [List.mem_singleton] at hb
    subst hb
    rw [List.mem_map] at ha
    obtain ⟨n, hn, hna⟩ := ha
    have := hid n hn
    omega
  · intro n hn
    rcases List.mem_append.mp hn with hn | hn
    · exact Nat.lt_trans (hid n hn) (Nat.lt_succ_self _)
    · rw [List.mem_singleton] at hn
      subst hn
      exact Nat.lt_succ_self _
  · intro n hn
    rcases List.mem_append.mp hn with hn | hn
    · exact Nat.lt_trans (hpar n hn) (Nat.lt_succ_self _)
    · rw [List.mem_singleton] at hn
      subst hn
      exact Nat.lt_trans hdlt (Nat.lt_succ_self _)
  · intro n hn
    rcases List.mem_append.mp hn with hn | hn
    · exact hurl n hn
    · rw [List.mem_singleton] at hn
      subst hn
      exact hu
  · intro n hn p hp hnp
    rcases List.mem_append.mp hn with hn | hn <;>
      rcases List.mem_append.mp hp with hp | hp
    · exact hpf n hn p hp hnp
    · rw [List.mem_singleton] at hp
      subst hp
      have := hpar n hn
      simp only [createNode] at hnp
      omega
    · rw [List.mem_singleton] at hn
      subst hn
      simp only [createNode] at hnp
      exact hdf p hp hnp.symm
    · rw [List.mem_singleton] at hn hp
      subst hn
      subst hp
      simp only [createNode] at hnp
      omega

/-- Looking up the node just created returns it. -/
theorem getNode_create {s : Store} (hid : ∀ n ∈ s.nodes, n.id < s.nextId)
    (dst : Nat) (t : String) (u : Option String) :
    getNode (createNode s dst t u).2 (createNode s dst t u).1.id =
      some (createNode s dst t u).1 := by
  show List.find? _ (s.nodes ++ [_]) = _
  rw [find?_append_of_none]
  · simp [List.find?_cons, createNode]
  · rw [List.find?_eq_none]
    intro n hn
    have := hid n hn
    simp only [beq_iff_eq, createNode]
    omega

/-- `item.url || undefined` never produces the empty-string url. -/
theorem jsUrlOrUndefined_ne_empty (u : Option String) :
    jsUrlOrUndefined u ≠ some "" := by
  unfold jsUrlOrUndefined jsTruthy
  cases u with
  | none => simp
  | some v =>
      by_cases hv : v = ""
      · subst hv; simp
      · simp [hv]

/-- Unfolding of the part_000 copy loop on a cons. -/
theorem P0_copyLoop_cons (rec : Store → Nat → Nat → Store) (s : Store)
    (item : BNode) (rest : List BNode) (dst : Nat) :
    P0.copyLoop rec s (item :: rest) dst =
      P0.copyLoop rec
        (if jsTruthy item.url
         then (createNode s dst item.title (jsUrlOrUndefined item.url)).2
         else rec (createNode s dst item.title (jsUrlOrUndefined item.url)).2
                item.id (createNode s dst item.title (jsUrlOrUndefined item.url)).1.id)
        rest dst := rfl

/-- The part_000 copy loop only extends the store, whenever the recursive
call does so for its own (freshly created) destination. -/
theorem P0_copyLoop_extends (rec : Store → Nat → Nat → Store)
    (hrec : ∀ s a b, Extends s (rec s a b) b) :
    ∀ (items : List BNode) (s : Store) (dst : Nat),
      Extends s (P0.copyLoop rec s items dst) dst := by
  intro items
  induction items with
  | nil => intro s dst; exact Extends_refl s dst
  | cons item rest ih =>
      intro s dst
      rw [P0_copyLoop_cons]
      refine Extends_trans_same ?_ (ih _ dst)
      have h1 : Extends s
          (createNode s dst item.title (jsUrlOrUndefined item.url)).2 dst :=
        Extends_create s dst _ _
      by_cases hti : jsTruthy item.url = true
      · rw [if_pos hti]
        exact h1
      · rw [if_neg hti]
        exact Extends_trans_fresh h1 (Nat.le_refl _) (hrec _ _ _)

/-- part_000 `copyBookmarks` only extends the store: it never deletes a
node, never reorders the existing ones, and attaches everything it creates
under the destination or under its own fresh folders. -/
theorem P0_copy_extends : ∀ (F : Nat) (s : Store) (src dst : Nat),
    Extends s (P0.copyBookmarks F s src dst) dst := by
  intro F
  induction F with
  | zero => intro s src dst; exact Extends_refl s dst
  | succ F ih =>
      intro s src dst
      rw [P0.copyBookmarks]
      cases hd : getNode s dst with
      | none => exact Extends_refl s dst
      | some d =>
          dsimp only
          by_cases h1 : jsTruthy d.url = true
          · rw [if_pos h1]
            exact Extends_refl s dst
          · rw [if_neg h1]
            cases hex : existsNode s src with
            | false =>
                simp only [hex, Bool.not_false, if_true]
                exact Extends_refl s dst
            | true =>
                simp only [hex, Bool.not_true, Bool.false_eq_true, if_false]
                exact P0_copyLoop_extends _ (fun s a b => ih s a b) _ _ _

/-- The part_000 copy loop preserves well-formedness (destination exists
below `nextId` and any node carrying its id is a folder), whenever the
recursive call does. -/
theorem P0_copyLoop_wf (rec : Store → Nat → Nat → Store)
    (hrecwf : ∀ s a b, WF s → b < s.nextId →
      (∀ dn ∈ s.nodes, dn.id = b → dn.url = none) → WF (rec s a b))
    (hrecext : ∀ s a b, Extends s (rec s a b) b) :
    ∀ (items : List BNode) (s : Store) (dst : Nat), WF s → dst < s.nextId →
      (∀ dn ∈ s.nodes, dn.id = dst → dn.url = none) →
      WF (P0.copyLoop rec s items dst) := by
  intro items
  induction items with
  | nil => intro s dst hwf _ _; exact hwf
  | cons item rest ih =>
      intro s dst hwf hdlt hdf
      rw [P0_copyLoop_cons]
      have hwfp : WF (createNode s dst item.title (jsUrlOrUndefined item.url)).2 :=
        createNode_wf hwf hdlt hdf _ (jsUrlOrUndefined_ne_empty _)
      have hdfp : ∀ dn ∈ (createNode s dst item.title (jsUrlOrUndefined item.url)).2.nodes,
          dn.id = dst → dn.url = none := by
        intro dn hdn hdnid
        rcases List.mem_append.mp hdn with hh | hh
        · exact hdf dn hh hdnid
        · rw [List.mem_singleton] at hh
          subst hh
          exact absurd hdnid (by simp only [createNode]; omega)
      by_cases hti : jsTruthy item.url = true
      · rw [if_pos hti]
        exact ih _ dst hwfp (Nat.lt_trans hdlt (Nat.lt_succ_self _)) hdfp
      · rw [if_neg hti]
        have hurlnone : jsUrlOrUndefined item.url = none := by
          unfold jsUrlOrUndefined
          rw [if_neg hti]
        have hdfrec : ∀ dn ∈ (createNode s dst item.title (jsUrlOrUndefined item.url)).2.nodes,
            dn.id = (createNode s dst item.title (jsUrlOrUndefined item.url)).1.id →
            dn.url = none := by
          intro dn hdn hdnid
          rcases List.mem_append.mp hdn with hh | hh
          · have := hwf.2.1 dn hh
            exact absurd hdnid (by simp only [createNode] at *; omega)
          · rw [List.mem_singleton] at hh
            subst hh
            exact hurlnone
        have hwfs2 : WF (rec (createNode s dst item.title (jsUrlOrUndefined item.url)).2
            item.id (createNode s dst item.title (jsUrlOrUndefined item.url)).1.id) :=
          hrecwf _ _ _ hwfp (Nat.lt_succ_self _) hdfrec
        obtain ⟨hle, extra, hnodes, hprop⟩ := hrecext
          (createNode s dst item.title (jsUrlOrUndefined item.url)).2
          item.id (createNode s dst item.title (jsUrlOrUndefined item.url)).1.id
        apply ih _ dst hwfs2
        · simp only [createNode] at hle ⊢
          omega
        · intro dn hdn hdnid
          rw [hnodes] at hdn
          rcases List.mem_append.mp hdn with hh | hh
          · exact hdfp dn hh hdnid
          · have := (hprop dn hh).2
            exact absurd hdnid (by simp only [createNode] at this; omega)

/-- part_000 `copyBookmarks` preserves well-formedness. -/
theorem P0_copy_wf : ∀ (F : Nat) (s : Store) (src dst : Nat), WF s →
    dst < s.nextId → (∀ dn ∈ s.nodes, dn.id = dst → dn.url = none) →
    WF (P0.copyBookmarks F s src dst) := by
  intro F
  induction F with
  | zero => intro s _ _ hwf _ _; exact hwf
  | succ F ih =>
      intro s src dst hwf hdlt hdf
      rw [P0.copyBookmarks]
      cases hd : getNode s dst with
      | none => exact hwf
      | some d =>
          dsimp only
          by_cases h1 : jsTruthy d.url = true
          · rw [if_pos h1]
            exact hwf
          · rw [if_neg h1]
            cases hex : existsNode s src with
            | false =>
                simp only [hex, Bool.not_false, if_true]
                exact hwf
            | true =>
                simp only [hex, Bool.not_true, Bool.false_eq_true, if_false]
                exact P0_copyLoop_wf _ (fun s a b => ih s a b)
                  (fun s a b => P0_copy_extends F s a b) _ _ _ hwf hdlt hdf

/-- An id at or above `nextId` is never reachable from an in-range root. -/
theorem reach_fresh_not_mem {s : Store} (hid : ∀ n ∈ s.nodes, n.id < s.nextId)
    {F o : Nat} (ho : o < s.nextId) {j : Nat} (hj : s.nextId ≤ j) :
    j ∉ reachIds s F o := by
  intro hmem
  have := reach_bound hid F o ho j hmem
  omega

/-- Reach stability, packaged with the bound side condition. -/
theorem Extends_reach_eq {s s' : Store} {dst : Nat} (h : Extends s s' dst)
    (hid : ∀ n ∈ s.nodes, n.id < s.nextId) (F o : Nat) (ho : o < s.nextId)
    (hdst : dst ∉ reachIds s F o) : reachIds s' F o = reachIds s F o :=
  Extends_reachIds h F o (reach_bound hid F o ho) hdst

/-- Extraction stability, packaged with the bound side condition. -/
theorem Extends_extract_eq {s s' : Store} {dst : Nat} (h : Extends s s' dst)
    (hid : ∀ n ∈ s.nodes, n.id < s.nextId) (F o : Nat) (ho : o < s.nextId)
    (hdst : dst ∉ reachIds s F o) :
    extractChildren s' F o = extractChildren s F o :=
  Extends_extractChildren h F o (reach_bound hid F o ho) hdst

/-- Extraction of a list of untouched old nodes is stable under an
extension. -/
theorem Extends_mapExtract {s s' : Store} {dst : Nat} (h : Extends s s' dst)
    (hid : ∀ n ∈ s.nodes, n.id < s.nextId) (F : Nat) (rest : List BNode)
    (hmem : ∀ r ∈ rest, r ∈ s.nodes)
    (hreach : ∀ r ∈ rest, dst ∉ reachIds s F r.id) :
    rest.map (extractNode s F) = rest.map (extractNode s' F) := by
  apply List.map_congr_left
  intro r hr
  unfold extractNode
  congr 1
  exact (Extends_extract_eq h hid F r.id (hid r (hmem r hr)) (hreach r hr)).symm

/-- `map (extractNode s F)` unfolded on a cons. -/
theorem map_extractNode_cons (s : Store) (F : Nat) (item : BNode)
    (rest : List BNode) :
    (item :: rest).map (extractNode s F) =
      BTree.mk item.title item.url (extractChildren s F item.id) ::
        rest.map (extractNode s F) := rfl

/-- `plantForest` unfolded on a cons. -/
theorem plantForest_cons (s : Store) (ti : String) (u : Option String)
    (cs ts : List BTree) (dst : Nat) :
    plantForest s (BTree.mk ti u cs :: ts) dst =
      plantForest
        (if jsTruthy u then (createNode s dst ti u).2
         else plantForest (createNode s dst ti u).2 cs (createNode s dst ti u).1.id)
        ts dst := by
  rw [plantForest]

/-- One level of the copy/plant correspondence: assuming the correspondence
for `copyBookmarks` at depth budget `F`, the part_000 item loop at `F`
plants exactly the forest extracted (at depth `F`) from the items, in
order. -/
theorem P0_loopEq (F : Nat)
    (hcopy : ∀ (s : Store) (src dst : Nat) (d : BNode),
      WF s → getNode s dst = some d → d.url = none →
      existsNode s src = true → dst ∉ reachIds s F src →
      P0.copyBookmarks F s src dst = plantForest s (extractChildren s F src) dst) :
    ∀ (items : List BNode) (s : Store) (dst : Nat),
      WF s → dst < s.nextId →
      (∀ dn ∈ s.nodes, dn.id = dst → dn.url = none) →
      (∀ i ∈ items, i ∈ s.nodes) →
      (∀ i ∈ items, dst ∉ reachIds s F i.id) →
      P0.copyLoop (P0.copyBookmarks F) s items dst =
        plantForest s (items.map (extractNode s F)) dst := by
  intro items
  induction items with
  | nil =>
      intro s dst _ _ _ _ _
      simp only [List.map_nil]
      rw [plantForest]
      rfl
  | cons item rest ih =>
      intro s dst hwf hdlt hdf hmem hreach
      have hitem : item ∈ s.nodes := hmem item (List.mem_cons_self _ _)
      have hitem_url : item.url ≠ some "" := hwf.2.2.2.1 item hitem
      have hjs : jsUrlOrUndefined item.url = item.url := jsUrlOrUndefined_id hitem_url
      have hreach_item : dst ∉ reachIds s F item.id :=
        hreach item (List.mem_cons_self _ _)
      have hilt : item.id < s.nextId := hwf.2.1 item hitem
      rw [P0_copyLoop_cons, hjs, map_extractNode_cons, plantForest_cons]
      have hwfP : WF (createNode s dst item.title item.url).2 :=
        createNode_wf hwf hdlt hdf _ hitem_url
      have hextP : Extends s (createNode s dst item.title item.url).2 dst :=
        Extends_create s dst _ _
      have hdfP : ∀ dn ∈ (createNode s dst item.title item.url).2.nodes,
          dn.id = dst → dn.url = none := by
        intro dn hdn hdnid
        rcases List.mem_append.mp hdn with hh | hh
        · exact hdf dn hh hdnid
        · rw [List.mem_singleton] at hh
          subst hh
          have h' : s.nextId = dst := hdnid
          omega
      by_cases hti : jsTruthy item.url = true
      · rw [if_pos hti, if_pos hti]
        rw [Extends_mapExtract hextP hwf.2.1 F rest
          (fun r hr => hmem r (List.mem_cons_of_mem _ hr))
          (fun r hr => hreach r (List.mem_cons_of_mem _ hr))]
        apply ih _ dst hwfP (Nat.lt_trans hdlt (Nat.lt_succ_self _)) hdfP
        · intro r hr
          exact List.mem_append_left _ (hmem r (List.mem_cons_of_mem _ hr))
        · intro r hr
          rw [Extends_reach_eq hextP hwf.2.1 F r.id
            (hwf.2.1 r (hmem r (List.mem_cons_of_mem _ hr)))
            (hreach r (List.mem_cons_of_mem _ hr))]
          exact hreach r (List.mem_cons_of_mem _ hr)
      · rw [if_neg hti, if_neg hti]
        have hurl_none : item.url = none := by
          cases hu : item.url with
          | none => rfl
          | some v =>
              rw [hu] at hti
              by_cases hv : v = ""
              · subst hv
                exact absurd hu hitem_url
              · exact absurd (by simp [jsTruthy, hv]) hti
        have hget : getNode (createNode s dst item.title item.url).2
            (createNode s dst item.title item.url).1.id =
            some (createNode s dst item.title item.url).1 :=
          getNode_create hwf.2.1 dst item.title item.url
        have hexists : existsNode (createNode s dst item.title item.url).2
            item.id = true :=
          existsNode_of_mem (List.mem_append_left _ hitem)
        have hreachP : reachIds (createNode s dst item.title item.url).2 F item.id =
            reachIds s F item.id :=
          Extends_reach_eq hextP hwf.2.1 F item.id hilt hreach_item
        have hfreshnot : (createNode s dst item.title item.url).1.id ∉
            reachIds (createNode s dst item.title item.url).2 F item.id := by
          rw [hreachP]
          exact reach_fresh_not_mem hwf.2.1 hilt (Nat.le_refl _)
        have hextitem : extractChildren (createNode s dst item.title item.url).2
              F item.id = extractChildren s F item.id :=
          Extends_extract_eq hextP hwf.2.1 F item.id hilt hreach_item
        have hs2 : P0.copyBookmarks F (createNode s dst item.title item.url).2
              item.id (createNode s dst item.title item.url).1.id =
            plantForest (createNode s dst item.title item.url).2
              (extractChildren s F item.id)
              (createNode s dst item.title item.url).1.id := by
          rw [hcopy _ _ _ _ hwfP hget hurl_none hexists hfreshnot, hextitem]
        rw [hs2]
        have hext2 : Extends s
            (plantForest (createNode s dst item.title item.url).2
              (extractChildren s F item.id)
              (createNode s dst item.title item.url).1.id) dst := by
          rw [← hs2]
          exact Extends_trans_fresh hextP (Nat.le_refl _) (P0_copy_extends F _ _ _)
        have hwf2 : WF (plantForest (createNode s dst item.title item.url).2
            (extractChildren s F item.id)
            (createNode s dst item.title item.url).1.id) := by
          rw [← hs2]
          apply P0_copy_wf F _ _ _ hwfP (Nat.lt_succ_self _)
          intro dn hdn hdnid
          rcases List.mem_append.mp hdn with hh | hh
          · have h1 : dn.id < s.nextId := hwf.2.1 dn hh
            have h2 : dn.id = s.nextId := hdnid
            omega
          · rw [List.mem_singleton] at hh
            subst hh
            exact hurl_none
        obtain ⟨hle2, extra2, hnodes2, hprop2⟩ := hext2
        rw [Extends_mapExtract ⟨hle2, extra2, hnodes2, hprop2⟩ hwf.2.1 F rest
          (fun r hr => hmem r (List.mem_cons_of_mem _ hr))
          (fun r hr => hreach r (List.mem_cons_of_mem _ hr))]
        apply ih _ dst hwf2 (by omega)
        · intro dn hdn hdnid
          rw [hnodes2] at hdn
          rcases List.mem_append.mp hdn with hh | hh
          · exact hdf dn hh hdnid
          · have h1 : s.nextId ≤ dn.id := (hprop2 dn hh).2
            have h2 : dn.id = dst := hdnid
            omega
        · intro r hr
          rw [hnodes2]
          exact List.mem_append_left _ (hmem r (List.mem_cons_of_mem _ hr))
        · intro r hr
          rw [Extends_reach_eq ⟨hle2, extra2, hnodes2, hprop2⟩ hwf.2.1 F r.id
            (hwf.2.1 r (hmem r (List.mem_cons_of_mem _ hr)))
            (hreach r (List.mem_cons_of_mem _ hr))]
          exact hreach r (List.mem_cons_of_mem _ hr)

/-- part_000 `copyBookmarks` refines the spec's `copyTree`: on a
well-formed store, with an existing folder destination outside the source
subtree, copying equals planting the forest extracted from the source
(one created node per source child with the same title and url, recursing
into folders), at every depth budget. -/
theorem P0_copy_refines_plant : ∀ (F : Nat) (s : Store) (src dst : Nat) (d : BNode),
    WF s → getNode s dst = some d → d.url = none →
    existsNode s src = true → dst ∉ reachIds s F src →
    P0.copyBookmarks F s src dst = plantForest s (extractChildren s F src) dst := by
  intro F
  induction F with
  | zero =>
      intro s src dst d _ _ _ _ _
      rw [extractChildren, plantForest]
      rfl
  | succ F ih =>
      intro s src dst d hwf hd hdu hex hreach
      have hdid : d.id = dst := by
        have := List.find?_some hd
        simpa using this
      have hdmem : d ∈ s.nodes := List.mem_of_find?_eq_some hd
      have hdlt : dst < s.nextId := hdid ▸ hwf.2.1 d hdmem
      have hdf : ∀ dn ∈ s.nodes, dn.id = dst → dn.url = none := by
        intro dn hdn hdnid
        have heq : dn = d := id_inj hwf.1 hdn hdmem (by rw [hdnid, hdid])
        rw [heq, hdu]
      rw [P0.copyBookmarks, hd]
      dsimp only
      rw [if_neg (by simp [hdu, jsTruthy])]
      simp only [hex, Bool.not_true, Bool.false_eq_true, if_false]
      rw [show extractChildren s (F + 1) src =
        (getChildren s src).map (extractNode s F) from rfl]
      apply P0_loopEq F ih _ s dst hwf hdlt hdf
      · intro c hc
        exact (List.mem_filter.mp hc).1
      · intro c hc hin
        exact hreach (reach_sub hc F dst hin)

/-- Unfolding of the background.js copy loop on a cons. -/
theorem BG_copyLoop_cons (rec : Store → Nat → Nat → Store × Bool) (s : Store)
    (item : BNode) (rest : List BNode) (dst : Nat) :
    BG.copyLoop rec s (item :: rest) dst =
      (if (if jsTruthy item.url
           then ((createNode s dst item.title item.url).2, true)
           else rec (createNode s dst item.title item.url).2 item.id
                  (createNode s dst item.title item.url).1.id).2 = true
       then BG.copyLoop rec
              (if jsTruthy item.url
               then ((createNode s dst item.title item.url).2, true)
               else rec (createNode s dst item.title item.url).2 item.id
                      (createNode s dst item.title item.url).1.id).1 rest dst
       else (if jsTruthy item.url
             then ((createNode s dst item.title item.url).2, true)
             else rec (createNode s dst item.title item.url).2 item.id
                    (createNode s dst item.title item.url).1.id)) := rfl

/-- The background.js copy loop only ever appends nodes, whenever the
recursive call does — whether or not it succeeds, and even when a failure
aborts the remaining items. -/
theorem BG_copyLoop_append (rec : Store → Nat → Nat → Store × Bool)
    (hrec : ∀ s a b, ∃ e, (rec s a b).1.nodes = s.nodes ++ e) :
    ∀ (items : List BNode) (s : Store) (dst : Nat),
      ∃ e, (BG.copyLoop rec s items dst).1.nodes = s.nodes ++ e := by
  intro items
  induction items with
  | nil =>
      intro s dst
      refine ⟨[], ?_⟩
      show s.nodes = s.nodes ++ []
      simp
  | cons item rest ih =>
      intro s dst
      rw [BG_copyLoop_cons]
      by_cases hti : jsTruthy item.url = true
      · simp only [if_pos hti]
        obtain ⟨e2, he2⟩ := ih (createNode s dst item.title item.url).2 dst
        refine ⟨⟨s.nextId, dst, item.title, item.url⟩ :: e2, ?_⟩
        simp only [if_true]
        rw [he2]
        simp [createNode]
      · simp only [if_neg hti]
        obtain ⟨e1, he1⟩ := hrec (createNode s dst item.title item.url).2 item.id
          (createNode s dst item.title item.url).1.id
        cases hflag : (rec (createNode s dst item.title item.url).2 item.id
            (createNode s dst item.title item.url).1.id).2 with
        | true =>
            rw [if_pos rfl]
            obtain ⟨e2, he2⟩ := ih (rec (createNode s dst item.title item.url).2
              item.id (createNode s dst item.title item.url).1.id).1 dst
            refine ⟨⟨s.nextId, dst, item.title, item.url⟩ :: (e1 ++ e2), ?_⟩
            rw [he2, he1]
            simp [createNode]
        | false =>
            rw [if_neg (by simp)]
            refine ⟨⟨s.nextId, dst, item.title, item.url⟩ :: e1, ?_⟩
            rw [he1]
            simp [createNode]

/-- background.js `copyBookmarks` without the clear flag (the form the
spec's `copyTree` describes, and the form every recursive call takes) only
ever appends nodes. -/
theorem BG_copy_append : ∀ (F : Nat) (s : Store) (src dst : Nat),
    ∃ e, (BG.copyBookmarks F s src dst false).1.nodes = s.nodes ++ e := by
  intro F
  induction F with
  | zero =>
      intro s src dst
      refine ⟨[], ?_⟩
      show s.nodes = s.nodes ++ []
      simp
  | succ F ih =>
      intro s src dst
      rw [BG.copyBookmarks]
      simp only [Bool.false_and, Bool.false_eq_true, if_false]
      cases hex : existsNode s src with
      | false =>
          simp only [hex, Bool.not_false, if_true]
          exact ⟨[], by simp⟩
      | true =>
          simp only [hex, Bool.not_true, Bool.false_eq_true, if_false]
          exact BG_copyLoop_append _ (fun s a b => ih s a b) _ _ _

/-- C8: the source `copyBookmarks` is the spec's `copyTree`.  On a
well-formed store, with an existing folder destination lying outside the
source subtree, the part_000 copy equals planting under the destination the
content forest extracted from the source: one created node per direct
source child with the same title and url (url omitted for folders),
recursing into each created folder (`plantForest`, modelled from the
spec's words).  And the copies of both revisions never delete any node —
the original node list is a prefix of the result, so they are purely
additive (for background.js in the `clearDestFirst = false` form that the
spec's `copyTree` describes and that every recursive call uses). -/
theorem C8_copy_additive_mirror :
    (∀ (fuel : Nat) (s : Store) (src dst : Nat) (d : BNode),
      WF s → getNode s dst = some d → d.url = none →
      existsNode s src = true → dst ∉ reachIds s fuel src →
      P0.copyBookmarks fuel s src dst =
        plantForest s (extractChildren s fuel src) dst) ∧
    (∀ (fuel : Nat) (s : Store) (src dst : Nat),
      ∃ extra, (P0.copyBookmarks fuel s src dst).nodes = s.nodes ++ extra) ∧
    (∀ (fuel : Nat) (s : Store) (src dst : Nat),
      ∃ extra, (BG.copyBookmarks fuel s src dst false).1.nodes = s.nodes ++ extra) := by
  refine ⟨P0_copy_refines_plant, ?_, ?_⟩
  · intro fuel s src dst
    obtain ⟨-, extra, hn, -⟩ := P0_copy_extends fuel s src dst
    exact ⟨extra, hn⟩
  · exact fun fuel s src dst => BG_copy_append fuel s src dst

/-- C8 witness: copying the whole backup hierarchy (folder 3, which holds
the Private and Work folders and a nested leaf) into the bar folder of the
part_000 scenario store plants exactly its extracted forest. -/
theorem C8_witness :
    P0.copyBookmarks 10 p0ScenarioStore 3 1 =
      plantForest p0ScenarioStore (extractChildren p0ScenarioStore 10 3) 1 :=
  C8_copy_additive_mirror.1 10 p0ScenarioStore 3 1 ⟨1, 0, "Bookmarks Bar", none⟩
    (by decide) rfl rfl (by decide) (by decide)
